import Mathlib

/-!
# Cross-sectional ranking and filter composition engine

A verification development of the expression-composition and evaluation model
of the pipeline tutorial notebook
(`src/tutorials/pipeline/pipeline_tutorial_lesson_11.ipynb`).  The notebook is
glue code over an external pipeline library; the evaluation engine itself is
not part of this repository, so the kernel below is modelled from the
specification's description of that engine (masking, null propagation,
deterministic rank selection, screen assembly), while the concrete pipeline
(`make_pipeline`, `base_universe`, `mean_10`, `mean_30`, `percent_difference`,
`shorts`, `longs`, `securities_to_trade`) is translated from the notebook's
cells.
-/

namespace PipelineKernel

/- Rational arithmetic must evaluate inside `decide`-style proofs about
concrete cross-sections, so the four kernel-opaque core operations are made
unfoldable for this development. -/
attribute [local semireducible] Rat.add Rat.sub Rat.mul Rat.inv

/-- An asset is an opaque identifier; we use naturals, whose order supplies the
deterministic secondary sort key (asset identifier ascending). -/
abbrev Asset := Nat

/-- Modelled from the spec: the Data Source Adapter, which for one date
supplies named columns of raw per-asset values (the external platform's data
layer is not part of this repository).  A numeric column maps an asset to an
optional rational, a boolean column to an optional boolean; `none` is the
missing/null sentinel. -/
structure DataSource where
  numCol : String → Asset → Option ℚ
  boolCol : String → Asset → Option Bool

mutual
/-- Modelled from the spec: numeric expression nodes (factors).  The external
library's `Factor` class is not in this repository.  Kinds: `source` columns,
binary arithmetic (`add`, `sub`, `div`), and a `mask` node restricting the
active asset set. -/
inductive NExpr where
  | src (field : String) : NExpr
  | mask (m : FExpr) (x : NExpr) : NExpr
  | add (x y : NExpr) : NExpr
  | sub (x y : NExpr) : NExpr
  | div (x y : NExpr) : NExpr

/-- Modelled from the spec: boolean expression nodes (filters).  The external
library's `Filter` class is not in this repository.  Kinds: `source` columns,
logical `and`/`or`/`not`, and the rank-select nodes `rankTop`, `rankBottom`
and `pct` (percentile band). -/
inductive FExpr where
  | src (field : String) : FExpr
  | and (x y : FExpr) : FExpr
  | or (x y : FExpr) : FExpr
  | not (x : FExpr) : FExpr
  | rankTop (n : Nat) (x : NExpr) : FExpr
  | rankBottom (n : Nat) (x : NExpr) : FExpr
  | pct (lo hi : ℚ) (x : NExpr) : FExpr
end

/-- Modelled from the spec: the sort order for rank selection — by value
ascending, ties broken by asset identifier ascending (the stable,
deterministic secondary key). -/
def rankLE (p q : Asset × ℚ) : Prop :=
  p.2 < q.2 ∨ (p.2 = q.2 ∧ p.1 ≤ q.1)

instance : DecidableRel rankLE := fun p q =>
  decidable_of_iff (p.2 < q.2 ∨ (p.2 = q.2 ∧ p.1 ≤ q.1)) Iff.rfl

instance : IsTotal (Asset × ℚ) rankLE where
  total p q := by
    rcases lt_trichotomy p.2 q.2 with h | h | h
    · exact Or.inl (Or.inl h)
    · rcases Nat.le_total p.1 q.1 with h' | h'
      · exact Or.inl (Or.inr ⟨h, h'⟩)
      · exact Or.inr (Or.inr ⟨h.symm, h'⟩)
    · exact Or.inr (Or.inl h)

instance : IsTrans (Asset × ℚ) rankLE where
  trans p q r hpq hqr := by
    rcases hpq with h1 | ⟨e1, l1⟩
    · rcases hqr with h2 | ⟨e2, _⟩
      · exact Or.inl (h1.trans h2)
      · exact Or.inl (e2 ▸ h1)
    · rcases hqr with h2 | ⟨e2, l2⟩
      · exact Or.inl (e1 ▸ h2)
      · exact Or.inr ⟨e1.trans e2, l1.trans l2⟩

/-- Modelled from the spec: gather the (asset, value) pairs of the active set
and drop nulls, in universe order. -/
def activePairs (u : List Asset) (f : Asset → Option ℚ) : List (Asset × ℚ) :=
  u.filterMap fun a => (f a).map fun v => (a, v)

/-- Modelled from the spec: the null-dropped cross-section sorted by value
ascending with ties broken by asset identifier ascending. -/
def sortedPairs (u : List Asset) (f : Asset → Option ℚ) : List (Asset × ℚ) :=
  (activePairs u f).insertionSort rankLE

/-- Modelled from the spec: Top-N = the last `n` assets after the sort. -/
def topSel (u : List Asset) (f : Asset → Option ℚ) (n : Nat) : List Asset :=
  ((sortedPairs u f).drop ((sortedPairs u f).length - n)).map Prod.fst

/-- Modelled from the spec: Bottom-N = the first `n` assets after the sort. -/
def bottomSel (u : List Asset) (f : Asset → Option ℚ) (n : Nat) : List Asset :=
  ((sortedPairs u f).take n).map Prod.fst

/-- Modelled from the spec: the 0-indexed rank fraction `rank/(count-1)`, with
the single-asset (and empty) case defined as 0. -/
def rankFrac (i len : Nat) : ℚ :=
  if len ≤ 1 then 0 else (i : ℚ) / ((len : ℚ) - 1)

/-- Modelled from the spec: walk the sorted pairs keeping those whose rank
fraction lies within `[lo/100, hi/100]` inclusive; `i` is the rank of the
first pair of `s` and `len` the total count. -/
def pctBand (lo hi : ℚ) (len : Nat) : Nat → List (Asset × ℚ) → List Asset
  | _, [] => []
  | i, p :: rest =>
      if lo / 100 ≤ rankFrac i len ∧ rankFrac i len ≤ hi / 100 then
        p.1 :: pctBand lo hi len (i + 1) rest
      else
        pctBand lo hi len (i + 1) rest

/-- Modelled from the spec: the percentile band selection — assets whose
0-indexed rank fraction lies in `[lo/100, hi/100]` inclusive. -/
def pctSel (u : List Asset) (f : Asset → Option ℚ) (lo hi : ℚ) : List Asset :=
  pctBand lo hi (sortedPairs u f).length 0 (sortedPairs u f)

mutual
/-- Modelled from the spec: the Masking & Rank Evaluator on numeric nodes for
one date (the external platform's evaluation engine is not in this
repository).  A `mask` node yields null outside the active set (mask absent
from `some true` means excluded); arithmetic propagates null: any operation
with a null operand yields null. -/
def evalN (d : DataSource) (u : List Asset) : NExpr → Asset → Option ℚ
  | NExpr.src s, a => d.numCol s a
  | NExpr.mask m x, a =>
      if evalF d u m a = some true then evalN d u x a else none
  | NExpr.add x y, a =>
      match evalN d u x a, evalN d u y a with
      | some p, some q => some (p + q)
      | _, _ => none
  | NExpr.sub x y, a =>
      match evalN d u x a, evalN d u y a with
      | some p, some q => some (p - q)
      | _, _ => none
  | NExpr.div x y, a =>
      match evalN d u x a, evalN d u y a with
      | some p, some q => some (p / q)
      | _, _ => none

/-- Modelled from the spec: the Masking & Rank Evaluator on boolean nodes for
one date.  Logical operations propagate null; rank-select nodes gather the
active set's non-null values, sort them deterministically and select by rank,
so an asset with a null value is never selected. -/
def evalF (d : DataSource) (u : List Asset) : FExpr → Asset → Option Bool
  | FExpr.src s, a => d.boolCol s a
  | FExpr.and x y, a =>
      match evalF d u x a, evalF d u y a with
      | some p, some q => some (p && q)
      | _, _ => none
  | FExpr.or x y, a =>
      match evalF d u x a, evalF d u y a with
      | some p, some q => some (p || q)
      | _, _ => none
  | FExpr.not x, a => (evalF d u x a).map fun b => !b
  | FExpr.rankTop n x, a =>
      some (decide (a ∈ topSel u (fun b => evalN d u x b) n))
  | FExpr.rankBottom n x, a =>
      some (decide (a ∈ bottomSel u (fun b => evalN d u x b) n))
  | FExpr.pct lo hi x, a =>
      some (decide (a ∈ pctSel u (fun b => evalN d u x b) lo hi))
end

/-- Modelled from the spec: resolution of a boolean column at a point of use
(screen or mask): a null boolean is treated as excluded (`false`), never
included. -/
def filterPass (d : DataSource) (u : List Asset) (e : FExpr) (a : Asset) : Bool :=
  (evalF d u e a).getD false

/-- Modelled from the spec: the error taxonomy of the external library's
construction and evaluation API. -/
inductive PipeError where
  | invalidRange : PipeError
  | typeMismatch : PipeError
  | missingColumn : PipeError
  | cyclicExpression : PipeError
deriving DecidableEq

/-- Modelled from the spec: the `percentile_between(lo, hi)` constructor of
the external library.  The bounds must satisfy `0 ≤ lo < hi ≤ 100`; otherwise
construction fails immediately with `InvalidRangeError`, before any
evaluation occurs (the result is a node or an error, never a deferred
check). -/
def percentile_between (x : NExpr) (lo hi : ℚ) : Except PipeError FExpr :=
  if 0 ≤ lo ∧ lo < hi ∧ hi ≤ 100 then
    Except.ok (FExpr.pct lo hi x)
  else
    Except.error PipeError.invalidRange

/-- A pipeline: named boolean output columns plus one screen filter
(translated from the notebook's `Pipeline(columns=..., screen=...)`). -/
structure Pipeline where
  outputs : List (String × FExpr)
  screen : FExpr

/-- Modelled from the spec: the Screen Assembler.  For one date, the Result
Table maps each asset passing the screen to its named output values (a null
output is recorded as missing, not dropped). -/
def runPipeline (d : DataSource) (u : List Asset) (p : Pipeline) :
    List (Asset × List (String × Option Bool)) :=
  (u.filter fun a => filterPass d u p.screen a).map fun a =>
    (a, p.outputs.map fun o => (o.1, evalF d u o.2 a))

/-! ## The notebook's pipeline, translated from
`pipeline_tutorial_lesson_11.ipynb` cells 10, 12, 14, 16 and 19.  The
`Q1500US` base universe and the two `SimpleMovingAverage` outputs are data
supplied by the external platform, so they appear as source columns; the
moving averages carry `base_universe` as their mask, as in the notebook. -/

/-- `base_universe = Q1500US()` — a built-in filter supplied by the platform,
modelled as a boolean source column. -/
def base_universe : FExpr := FExpr.src "Q1500US"

/-- `mean_10 = SimpleMovingAverage(inputs=[USEquityPricing.close],
window_length=10, mask=base_universe)` — the 10-day close-price average,
masked by the base universe. -/
def mean_10 : NExpr := NExpr.mask base_universe (NExpr.src "sma_close_10")

/-- `mean_30 = SimpleMovingAverage(inputs=[USEquityPricing.close],
window_length=30, mask=base_universe)` — the 30-day close-price average,
masked by the base universe. -/
def mean_30 : NExpr := NExpr.mask base_universe (NExpr.src "sma_close_30")

/-- `percent_difference = (mean_10 - mean_30) / mean_30`. -/
def percent_difference : NExpr :=
  NExpr.div (NExpr.sub mean_10 mean_30) mean_30

/-- `shorts = percent_difference.top(75)`. -/
def shorts : FExpr := FExpr.rankTop 75 percent_difference

/-- `longs = percent_difference.bottom(75)`. -/
def longs : FExpr := FExpr.rankBottom 75 percent_difference

/-- `securities_to_trade = (shorts | longs)`. -/
def securities_to_trade : FExpr := FExpr.or shorts longs

/-- `make_pipeline()` — columns `longs` and `shorts`, screened by
`securities_to_trade`. -/
def make_pipeline : Pipeline :=
  { outputs := [("longs", longs), ("shorts", shorts)]
    screen := securities_to_trade }

/-! ## Basic facts about the rank-selection kernel -/

theorem map_fst_activePairs (u : List Asset) (f : Asset → Option ℚ) :
    (activePairs u f).map Prod.fst = u.filter fun a => (f a).isSome := by
  induction u with
  | nil => rfl
  | cons a t ih =>
    cases h : f a <;>
      simp [activePairs, List.filterMap_cons, h, List.filter_cons, ← ih]

theorem sortedPairs_perm (u : List Asset) (f : Asset → Option ℚ) :
    (sortedPairs u f).Perm (activePairs u f) :=
  List.perm_insertionSort rankLE (activePairs u f)

theorem sortedPairs_sorted (u : List Asset) (f : Asset → Option ℚ) :
    (sortedPairs u f).Sorted rankLE :=
  List.sorted_insertionSort rankLE (activePairs u f)

theorem length_sortedPairs (u : List Asset) (f : Asset → Option ℚ) :
    (sortedPairs u f).length = (activePairs u f).length :=
  (sortedPairs_perm u f).length_eq

theorem mem_fst_sortedPairs {u : List Asset} {f : Asset → Option ℚ} {a : Asset} :
    a ∈ (sortedPairs u f).map Prod.fst ↔ a ∈ u ∧ (f a).isSome := by
  rw [((sortedPairs_perm u f).map Prod.fst).mem_iff, map_fst_activePairs,
    List.mem_filter]

theorem nodup_fst_sortedPairs {u : List Asset} (f : Asset → Option ℚ)
    (hu : u.Nodup) : ((sortedPairs u f).map Prod.fst).Nodup := by
  have h1 : ((activePairs u f).map Prod.fst).Nodup := by
    rw [map_fst_activePairs]; exact hu.filter _
  exact (((sortedPairs_perm u f).map Prod.fst).nodup_iff).mpr h1

theorem mem_topSel {u : List Asset} {f : Asset → Option ℚ} {n : Nat} {a : Asset}
    (h : a ∈ topSel u f n) : a ∈ u ∧ (f a).isSome := by
  rw [topSel, List.map_drop] at h
  exact mem_fst_sortedPairs.mp (List.mem_of_mem_drop h)

theorem mem_bottomSel {u : List Asset} {f : Asset → Option ℚ} {n : Nat} {a : Asset}
    (h : a ∈ bottomSel u f n) : a ∈ u ∧ (f a).isSome := by
  rw [bottomSel, List.map_take] at h
  exact mem_fst_sortedPairs.mp (List.mem_of_mem_take h)

theorem rankFrac_nonneg (i len : Nat) : 0 ≤ rankFrac i len := by
  rw [rankFrac]
  split
  · exact le_refl 0
  next h =>
    have h2 : (2 : ℚ) ≤ (len : ℚ) := by exact_mod_cast Nat.not_le.mp h
    exact div_nonneg (Nat.cast_nonneg i) (by linarith)

theorem rankFrac_le_one {i len : Nat} (h : i < len) : rankFrac i len ≤ 1 := by
  rw [rankFrac]
  split
  · exact zero_le_one
  next h1 =>
    have h2 : (2 : ℚ) ≤ (len : ℚ) := by exact_mod_cast Nat.not_le.mp h1
    have h3 : (i : ℚ) + 1 ≤ (len : ℚ) := by exact_mod_cast h
    rw [div_le_one (by linarith)]
    linarith

theorem mem_pctBand (lo hi : ℚ) (len : Nat) :
    ∀ (s : List (Asset × ℚ)) (i : Nat) (a : Asset),
      a ∈ pctBand lo hi len i s ↔
        ∃ j, ∃ hj : j < s.length, (s.get ⟨j, hj⟩).1 = a ∧
          lo / 100 ≤ rankFrac (i + j) len ∧ rankFrac (i + j) len ≤ hi / 100
  | [], i, a => by simp [pctBand]
  | p :: rest, i, a => by
    rw [pctBand]
    split
    next hcond =>
      simp only [List.mem_cons, mem_pctBand lo hi len rest (i + 1) a]
      constructor
      · rintro (rfl | ⟨j, hj, he, h1, h2⟩)
        · exact ⟨0, Nat.succ_pos _, rfl, by simpa using hcond.1, by simpa using hcond.2⟩
        · refine ⟨j + 1, Nat.succ_lt_succ hj, he, ?_, ?_⟩
          · rwa [show i + (j + 1) = i + 1 + j by omega]
          · rwa [show i + (j + 1) = i + 1 + j by omega]
      · rintro ⟨j, hj, he, h1, h2⟩
        cases j with
        | zero => exact Or.inl he.symm
        | succ j =>
          refine Or.inr ⟨j, Nat.lt_of_succ_lt_succ hj, he, ?_, ?_⟩
          · rwa [show i + 1 + j = i + (j + 1) by omega]
          · rwa [show i + 1 + j = i + (j + 1) by omega]
    next hcond =>
      simp only [mem_pctBand lo hi len rest (i + 1) a]
      constructor
      · rintro ⟨j, hj, he, h1, h2⟩
        refine ⟨j + 1, Nat.succ_lt_succ hj, he, ?_, ?_⟩
        · rwa [show i + (j + 1) = i + 1 + j by omega]
        · rwa [show i + (j + 1) = i + 1 + j by omega]
      · rintro ⟨j, hj, he, h1, h2⟩
        cases j with
        | zero =>
          exact absurd ⟨by simpa using h1, by simpa using h2⟩ hcond
        | succ j =>
          refine ⟨j, Nat.lt_of_succ_lt_succ hj, he, ?_, ?_⟩
          · rwa [show i + 1 + j = i + (j + 1) by omega]
          · rwa [show i + 1 + j = i + (j + 1) by omega]

theorem pctBand_all (lo hi : ℚ) (len : Nat) :
    ∀ (s : List (Asset × ℚ)) (i : Nat),
      (∀ j, j < s.length →
        lo / 100 ≤ rankFrac (i + j) len ∧ rankFrac (i + j) len ≤ hi / 100) →
      pctBand lo hi len i s = s.map Prod.fst
  | [], i, _ => rfl
  | p :: rest, i, h => by
    rw [pctBand, if_pos (by simpa using h 0 (Nat.succ_pos _))]
    rw [pctBand_all lo hi len rest (i + 1) fun j hj => by
      have := h (j + 1) (Nat.succ_lt_succ hj)
      rwa [show i + (j + 1) = i + 1 + j by omega] at this]
    rfl

theorem mem_pctSel {u : List Asset} {f : Asset → Option ℚ} {lo hi : ℚ} {a : Asset}
    (h : a ∈ pctSel u f lo hi) : a ∈ u ∧ (f a).isSome := by
  rw [pctSel, mem_pctBand] at h
  obtain ⟨j, hj, he, -, -⟩ := h
  exact mem_fst_sortedPairs.mp (he ▸ List.mem_map_of_mem Prod.fst (List.get_mem _ _ _))

theorem length_topSel {u : List Asset} {f : Asset → Option ℚ} {n : Nat}
    (h : n ≤ (activePairs u f).length) : (topSel u f n).length = n := by
  have hs := length_sortedPairs u f
  rw [topSel, List.length_map, List.length_drop]
  omega

theorem length_bottomSel {u : List Asset} {f : Asset → Option ℚ} {n : Nat}
    (h : n ≤ (activePairs u f).length) : (bottomSel u f n).length = n := by
  have hs := length_sortedPairs u f
  rw [bottomSel, List.length_map, List.length_take]
  omega

theorem topSel_disjoint_bottomSel {u : List Asset} {f : Asset → Option ℚ}
    {n : Nat} (hu : u.Nodup) (hlen : 2 * n ≤ (activePairs u f).length) :
    (topSel u f n).Disjoint (bottomSel u f n) := by
  have hs := length_sortedPairs u f
  rw [topSel, bottomSel, List.map_drop, List.map_take]
  refine (List.disjoint_take_drop (nodup_fst_sortedPairs f hu) ?_).symm
  omega

theorem filterPass_or_rank (d : DataSource) (u : List Asset) (x : NExpr)
    (n m : Nat) (a : Asset) :
    filterPass d u (FExpr.or (FExpr.rankTop n x) (FExpr.rankBottom m x)) a
        = true ↔
      a ∈ topSel u (evalN d u x) n ∨ a ∈ bottomSel u (evalN d u x) m := by
  simp [filterPass, evalF]

/-! ## Concrete data used by the claim examples and witnesses -/

/-- The five-asset universe of the spec's worked example (A..E as 0..4). -/
def exU : List Asset := [0, 1, 2, 3, 4]

/-- The example values A:1, B:2, C:3, D:4, E:5 (values ascending). -/
def exVals : Asset → Option ℚ := fun a => some ((a : ℚ) + 1)

/-- A concrete data source for witnesses: every numeric column holds the
asset's identifier plus one, every boolean column holds `true`. -/
def dEx : DataSource :=
  { numCol := fun _ a => some ((a : ℚ) + 1)
    boolCol := fun _ _ => some true }

/-! ## Claims -/

/-- C1: rank-select semantics.  For every rank-select node on a date the
(asset, value) pairs of the active set are gathered with nulls dropped and
sorted by value ascending, ties by asset identifier ascending: the sorted
cross-section is sorted under `rankLE` and is a permutation of the
null-dropped active pairs; `rank_top(n)` is exactly the last `n` assets of
that order, `rank_bottom(n)` exactly the first `n`; `percentile_between(lo,
hi)` selects exactly the assets whose 0-indexed rank fraction
`rank/(count-1)` (rank 0 when count = 1) lies in `[lo/100, hi/100]`
inclusive.  In particular for the active set {A:1, B:2, C:3, D:4, E:5},
`rank_top(2)` = {D, E} and `rank_bottom(2)` = {A, B}. -/
theorem C1_rank_select_semantics :
    (∀ (u : List Asset) (f : Asset → Option ℚ),
      (sortedPairs u f).Sorted rankLE ∧
      (sortedPairs u f).Perm (activePairs u f)) ∧
    (∀ (u : List Asset) (f : Asset → Option ℚ) (n : Nat),
      topSel u f n =
        ((sortedPairs u f).drop ((sortedPairs u f).length - n)).map Prod.fst ∧
      bottomSel u f n = ((sortedPairs u f).take n).map Prod.fst) ∧
    (∀ (u : List Asset) (f : Asset → Option ℚ) (lo hi : ℚ) (a : Asset),
      a ∈ pctSel u f lo hi ↔
        ∃ i, ∃ h : i < (sortedPairs u f).length,
          ((sortedPairs u f).get ⟨i, h⟩).1 = a ∧
          lo / 100 ≤ rankFrac i (sortedPairs u f).length ∧
          rankFrac i (sortedPairs u f).length ≤ hi / 100) ∧
    topSel exU exVals 2 = [3, 4] ∧ bottomSel exU exVals 2 = [0, 1] := by
  refine ⟨fun u f => ⟨sortedPairs_sorted u f, sortedPairs_perm u f⟩,
    fun u f n => ⟨rfl, rfl⟩, fun u f lo hi a => ?_, by decide, by decide⟩
  rw [pctSel, mem_pctBand]
  simp only [Nat.zero_add]

/-- C2: on an active set of size at least `2n` (after masking and
null-dropping), `rank_top(n)` and `rank_bottom(n)` each select exactly `n`
assets, the two selections are disjoint, and the filter
`rank_top(n) | rank_bottom(n)` passes exactly the assets of one of the two
halves — a set of exactly `2n` assets. -/
theorem C2_top_or_bottom_partition (d : DataSource) (u : List Asset)
    (x : NExpr) (n : Nat) (hn : 0 < n) (hu : u.Nodup)
    (hlen : 2 * n ≤ (activePairs u (evalN d u x)).length) :
    (topSel u (evalN d u x) n).length = n ∧
    (bottomSel u (evalN d u x) n).length = n ∧
    (topSel u (evalN d u x) n).Disjoint (bottomSel u (evalN d u x) n) ∧
    (topSel u (evalN d u x) n ++ bottomSel u (evalN d u x) n).length = 2 * n ∧
    ∀ a : Asset,
      filterPass d u (FExpr.or (FExpr.rankTop n x) (FExpr.rankBottom n x)) a
          = true ↔
        (a ∈ topSel u (evalN d u x) n ∨ a ∈ bottomSel u (evalN d u x) n) := by
  have htop : (topSel u (evalN d u x) n).length = n :=
    length_topSel (by omega)
  have hbot : (bottomSel u (evalN d u x) n).length = n :=
    length_bottomSel (by omega)
  exact ⟨htop, hbot, topSel_disjoint_bottomSel hu hlen,
    by rw [List.length_append, htop, hbot]; omega,
    fun a => filterPass_or_rank d u x n n a⟩

/-- Witness for C2 at the five-asset example universe with `n = 2`. -/
theorem C2_top_or_bottom_partition_witness :
    (0 < 2 ∧ exU.Nodup ∧
      2 * 2 ≤ (activePairs exU (evalN dEx exU (NExpr.src "v"))).length) ∧
    (topSel exU (evalN dEx exU (NExpr.src "v")) 2).length = 2 :=
  ⟨⟨by decide, by decide, by decide⟩,
    (C2_top_or_bottom_partition dEx exU (NExpr.src "v") 2 (by decide)
      (by decide) (by decide)).1⟩

/-- C3: null propagation.  An asset outside a node's active set (its mask not
`some true`) receives null, never a default numeric value — for an arbitrary
inner node `z`, in particular one whose own value at the asset exists; every
arithmetic operation (add, subtract, divide) with at least one null operand
yields null; and a null reaching a downstream boolean filter resolves to
`false` — the asset is excluded, both by the null-to-false resolution and by
every rank-select node built over the null factor. -/
theorem C3_null_propagation (d : DataSource) (u : List Asset) (m e : FExpr)
    (x y z : NExpr) (n : Nat) (lo hi : ℚ) (a : Asset)
    (hm : evalF d u m a ≠ some true)
    (hx : evalN d u x a = none)
    (he : evalF d u e a = none) :
    evalN d u (NExpr.mask m z) a = none ∧
    evalN d u (NExpr.add x y) a = none ∧ evalN d u (NExpr.add y x) a = none ∧
    evalN d u (NExpr.sub x y) a = none ∧ evalN d u (NExpr.sub y x) a = none ∧
    evalN d u (NExpr.div x y) a = none ∧ evalN d u (NExpr.div y x) a = none ∧
    filterPass d u e a = false ∧
    evalF d u (FExpr.rankTop n x) a = some false ∧
    evalF d u (FExpr.rankBottom n x) a = some false ∧
    evalF d u (FExpr.pct lo hi x) a = some false := by
  have ht : a ∉ topSel u (fun b => evalN d u x b) n := fun hmem => by
    have h2 := (mem_topSel hmem).2
    rw [hx] at h2
    simp at h2
  have hb : a ∉ bottomSel u (fun b => evalN d u x b) n := fun hmem => by
    have h2 := (mem_bottomSel hmem).2
    rw [hx] at h2
    simp at h2
  have hp : a ∉ pctSel u (fun b => evalN d u x b) lo hi := fun hmem => by
    have h2 := (mem_pctSel hmem).2
    rw [hx] at h2
    simp at h2
  refine ⟨by simp [evalN, hm], by simp [evalN, hx], ?_, by simp [evalN, hx],
    ?_, by simp [evalN, hx], ?_, by simp [filterPass, he],
    by simp [evalF, ht], by simp [evalF, hb], by simp [evalF, hp]⟩ <;>
    cases hY : evalN d u y a <;> simp [evalN, hx, hY]

/-- A data source whose numeric columns are populated everywhere but whose
boolean columns are null beyond the five example assets: at asset 9 a mask is
null while the underlying numeric value exists. -/
def dMix : DataSource :=
  { numCol := fun _ a => some ((a : ℚ) + 1)
    boolCol := fun _ a => if a < 5 then some true else none }

/-- Witness for C3 at a concrete null configuration: at asset 9 the mask
column is null (so not `some true`) while the raw value column holds 10 —
and the masked node still evaluates to null there, not to a default; the
null factor hypothesis is supplied by that same masked node. -/
theorem C3_null_propagation_witness :
    (evalF dMix exU (FExpr.src "b") 9 ≠ some true ∧
      evalN dMix exU (NExpr.mask (FExpr.src "b") (NExpr.src "v")) 9 = none ∧
      evalF dMix exU (FExpr.src "b") 9 = none) ∧
    evalN dMix exU (NExpr.src "v") 9 = some 10 ∧
    evalN dMix exU (NExpr.mask (FExpr.src "b") (NExpr.src "v")) 9 = none :=
  ⟨⟨by decide, by decide, by decide⟩, by decide,
    (C3_null_propagation dMix exU (FExpr.src "b") (FExpr.src "b")
      (NExpr.mask (FExpr.src "b") (NExpr.src "v")) (NExpr.src "v")
      (NExpr.src "v") 1 0 100 9 (by decide) (by decide) (by decide)).1⟩

/-- C4: for all boolean nodes `A` and `B`, the combined node `A & B`
evaluates pointwise to the logical AND of the two evaluations, a null operand
resolving to `false` (so the AND is `false` anywhere either side is null,
in particular outside the intersection of the active sets). -/
theorem C4_and_pointwise (d : DataSource) (u : List Asset) (A B : FExpr)
    (a : Asset) :
    filterPass d u (FExpr.and A B) a =
      (filterPass d u A a && filterPass d u B a) := by
  cases hA : evalF d u A a <;> cases hB : evalF d u B a <;>
    simp [filterPass, evalF, hA, hB]

/-- C5: `percentile_between(0, 100)` over a non-empty active set selects the
entire active set (after null-dropping): the selection equals all sorted
assets, and the filter passes an asset exactly when it is in the universe
with a non-null value. -/
theorem C5_percentile_full_range (d : DataSource) (u : List Asset) (x : NExpr)
    (_h : activePairs u (evalN d u x) ≠ []) :
    pctSel u (evalN d u x) 0 100 =
      (sortedPairs u (evalN d u x)).map Prod.fst ∧
    ∀ a : Asset,
      filterPass d u (FExpr.pct 0 100 x) a = true ↔
        a ∈ u ∧ (evalN d u x a).isSome := by
  have hall : pctSel u (evalN d u x) 0 100 =
      (sortedPairs u (evalN d u x)).map Prod.fst := by
    refine pctBand_all 0 100 _ _ 0 fun j hj => ⟨?_, ?_⟩
    · rw [Nat.zero_add]
      simpa using rankFrac_nonneg j (sortedPairs u (evalN d u x)).length
    · rw [Nat.zero_add]
      have h1 : (100 : ℚ) / 100 = 1 := by norm_num
      rw [h1]
      exact rankFrac_le_one hj
  refine ⟨hall, fun a => ?_⟩
  have hm : (a ∈ pctSel u (fun b => evalN d u x b) 0 100) =
      (a ∈ pctSel u (evalN d u x) 0 100) := rfl
  simp only [filterPass, evalF, Option.getD_some, decide_eq_true_eq, hm, hall]
  exact mem_fst_sortedPairs

/-- Witness for C5 at the five-asset example universe. -/
theorem C5_percentile_full_range_witness :
    activePairs exU (evalN dEx exU (NExpr.src "v")) ≠ [] ∧
    pctSel exU (evalN dEx exU (NExpr.src "v")) 0 100 =
      (sortedPairs exU (evalN dEx exU (NExpr.src "v"))).map Prod.fst :=
  ⟨by decide, (C5_percentile_full_range dEx exU (NExpr.src "v") (by decide)).1⟩

/-- C6: if `n` exceeds the active asset count, `rank_top(n)` and
`rank_bottom(n)` do not fail: each degrades gracefully to the full active
set. -/
theorem C6_graceful_degradation (d : DataSource) (u : List Asset) (x : NExpr)
    (n : Nat) (h : (activePairs u (evalN d u x)).length < n) :
    topSel u (evalN d u x) n =
      (sortedPairs u (evalN d u x)).map Prod.fst ∧
    bottomSel u (evalN d u x) n =
      (sortedPairs u (evalN d u x)).map Prod.fst ∧
    ∀ a : Asset,
      (filterPass d u (FExpr.rankTop n x) a = true ↔
        a ∈ u ∧ (evalN d u x a).isSome) ∧
      (filterPass d u (FExpr.rankBottom n x) a = true ↔
        a ∈ u ∧ (evalN d u x a).isSome) := by
  have hlen : (sortedPairs u (evalN d u x)).length ≤ n := by
    rw [length_sortedPairs]
    omega
  have htop : topSel u (evalN d u x) n =
      (sortedPairs u (evalN d u x)).map Prod.fst := by
    rw [topSel, Nat.sub_eq_zero_of_le hlen, List.drop_zero]
  have hbot : bottomSel u (evalN d u x) n =
      (sortedPairs u (evalN d u x)).map Prod.fst := by
    rw [bottomSel, List.take_of_length_le hlen]
  refine ⟨htop, hbot, fun a => ⟨?_, ?_⟩⟩
  · have hm : (a ∈ topSel u (fun b => evalN d u x b) n) =
        (a ∈ topSel u (evalN d u x) n) := rfl
    simp only [filterPass, evalF, Option.getD_some, decide_eq_true_eq, hm,
      htop]
    exact mem_fst_sortedPairs
  · have hm : (a ∈ bottomSel u (fun b => evalN d u x b) n) =
        (a ∈ bottomSel u (evalN d u x) n) := rfl
    simp only [filterPass, evalF, Option.getD_some, decide_eq_true_eq, hm,
      hbot]
    exact mem_fst_sortedPairs

/-- Witness for C6: `n = 10` exceeds the five active assets of the example
universe, and top-10 selects all of them. -/
theorem C6_graceful_degradation_witness :
    (activePairs exU (evalN dEx exU (NExpr.src "v"))).length < 10 ∧
    topSel exU (evalN dEx exU (NExpr.src "v")) 10 =
      (sortedPairs exU (evalN dEx exU (NExpr.src "v"))).map Prod.fst :=
  ⟨by decide, (C6_graceful_degradation dEx exU (NExpr.src "v") 10
    (by decide)).1⟩

/-- C7: constructing `percentile_between(lo, hi)` fails with
`InvalidRangeError` exactly when the bounds violate `0 ≤ lo < hi ≤ 100`, and
the check happens at construction time: the constructor returns either the
error or the already-built node, with no evaluation involved. -/
theorem C7_percentile_construction (x : NExpr) (lo hi : ℚ) :
    (percentile_between x lo hi = Except.error PipeError.invalidRange ↔
      ¬(0 ≤ lo ∧ lo < hi ∧ hi ≤ 100)) ∧
    (percentile_between x lo hi = Except.ok (FExpr.pct lo hi x) ↔
      (0 ≤ lo ∧ lo < hi ∧ hi ≤ 100)) := by
  rw [percentile_between]
  split
  next hc => simp [hc]
  next hc => simp [hc]

/-- C8: evaluating a pipeline for one date is a deterministic pure function
of that date's raw columns: two evaluations over data sources whose columns
agree pointwise produce identical result tables. -/
theorem C8_deterministic_evaluation (d1 d2 : DataSource) (u : List Asset)
    (p : Pipeline)
    (hnum : ∀ s a, d1.numCol s a = d2.numCol s a)
    (hbool : ∀ s a, d1.boolCol s a = d2.boolCol s a) :
    runPipeline d1 u p = runPipeline d2 u p := by
  obtain ⟨n1, b1⟩ := d1
  obtain ⟨n2, b2⟩ := d2
  have h1 : n1 = n2 := funext fun s => funext fun a => hnum s a
  have h2 : b1 = b2 := funext fun s => funext fun a => hbool s a
  rw [h1, h2]

/-- A data source identical to `dEx` except that its numeric columns are
written with the addition flipped — extensionally the same raw columns. -/
def dExFlip : DataSource :=
  { numCol := fun _ a => some (1 + (a : ℚ))
    boolCol := fun _ _ => some true }

/-- Witness for C8: `dEx` and `dExFlip` agree pointwise on every column, so
the notebook pipeline produces the same result table from both. -/
theorem C8_deterministic_evaluation_witness :
    ((∀ s a, dEx.numCol s a = dExFlip.numCol s a) ∧
      (∀ s a, dEx.boolCol s a = dExFlip.boolCol s a)) ∧
    runPipeline dEx exU make_pipeline = runPipeline dExFlip exU make_pipeline :=
  ⟨⟨fun _ _ => congrArg some (add_comm _ _), fun _ _ => rfl⟩,
    C8_deterministic_evaluation dEx dExFlip exU make_pipeline
      (fun _ _ => congrArg some (add_comm _ _)) (fun _ _ => rfl)⟩

/-- C9: in the notebook pipeline, on a date where at least 150 assets have a
non-null `percent_difference` (and universes do not repeat assets), the
`top(75)` and `bottom(75)` selections are disjoint, so every asset passing
the screen `shorts | longs` has exactly one of its `longs` and `shorts`
output values true. -/
theorem C9_exactly_one_side (d : DataSource) (u : List Asset) (a : Asset)
    (hu : u.Nodup)
    (hc : 150 ≤ (activePairs u (evalN d u percent_difference)).length)
    (hs : filterPass d u make_pipeline.screen a = true) :
    (topSel u (evalN d u percent_difference) 75).Disjoint
      (bottomSel u (evalN d u percent_difference) 75) ∧
    ((evalF d u longs a = some true ∧ evalF d u shorts a = some false) ∨
      (evalF d u shorts a = some true ∧ evalF d u longs a = some false)) := by
  have hdisj : (topSel u (evalN d u percent_difference) 75).Disjoint
      (bottomSel u (evalN d u percent_difference) 75) :=
    topSel_disjoint_bottomSel hu (by omega)
  have hor : a ∈ topSel u (evalN d u percent_difference) 75 ∨
      a ∈ bottomSel u (evalN d u percent_difference) 75 :=
    (filterPass_or_rank d u percent_difference 75 75 a).mp hs
  refine ⟨hdisj, ?_⟩
  rcases hor with hmem | hmem
  · refine Or.inr ⟨?_, ?_⟩
    · rw [shorts, evalF]
      exact congrArg some (decide_eq_true hmem)
    · rw [longs, evalF]
      exact congrArg some (decide_eq_false fun h => hdisj hmem h)
  · refine Or.inl ⟨?_, ?_⟩
    · rw [longs, evalF]
      exact congrArg some (decide_eq_true hmem)
    · rw [shorts, evalF]
      exact congrArg some (decide_eq_false fun h => hdisj h hmem)

/-- A 150-asset universe for the C9 witness. -/
def u150 : List Asset := List.range 150

/-- A data source for the C9 witness: the 30-day average column is the
constant 1, the other numeric columns grow with the asset identifier, every
boolean column is true, so `percent_difference` is non-null and strictly
increasing across all 150 assets. -/
def dEx9 : DataSource :=
  { numCol := fun s a => if s = "sma_close_30" then some 1 else some ((a : ℚ) + 2)
    boolCol := fun _ _ => some true }

set_option maxRecDepth 100000 in
/-- Witness for C9 on the 150-asset universe: asset 0 passes the screen and
is a long, not a short. -/
theorem C9_exactly_one_side_witness :
    (u150.Nodup ∧
      150 ≤ (activePairs u150 (evalN dEx9 u150 percent_difference)).length ∧
      filterPass dEx9 u150 make_pipeline.screen 0 = true) ∧
    ((evalF dEx9 u150 longs 0 = some true ∧
        evalF dEx9 u150 shorts 0 = some false) ∨
      (evalF dEx9 u150 shorts 0 = some true ∧
        evalF dEx9 u150 longs 0 = some false)) := by
  have h1 : u150.Nodup := by rw [u150]; exact List.nodup_range 150
  have h2 : 150 ≤ (activePairs u150 (evalN dEx9 u150 percent_difference)).length := by
    decide
  have h3 : filterPass dEx9 u150 make_pipeline.screen 0 = true := by decide
  exact ⟨⟨h1, h2, h3⟩, (C9_exactly_one_side dEx9 u150 0 h1 h2 h3).2⟩

/-- C10: every asset passing the notebook pipeline's screen lies inside the
base universe: `mean_10` and `mean_30` carry `base_universe` as their mask,
so `percent_difference` is null outside it and neither rank filter can select
such an asset — a screened asset is in the universe and its `Q1500US` column
is true. -/
theorem C10_screen_in_base_universe (d : DataSource) (u : List Asset)
    (a : Asset) (hs : filterPass d u make_pipeline.screen a = true) :
    a ∈ u ∧ d.boolCol "Q1500US" a = some true := by
  have hor : a ∈ topSel u (evalN d u percent_difference) 75 ∨
      a ∈ bottomSel u (evalN d u percent_difference) 75 :=
    (filterPass_or_rank d u percent_difference 75 75 a).mp hs
  have hsome : a ∈ u ∧ (evalN d u percent_difference a).isSome := by
    rcases hor with hmem | hmem
    · exact mem_topSel hmem
    · exact mem_bottomSel hmem
  refine ⟨hsome.1, ?_⟩
  have h30 : (evalN d u mean_30 a).isSome := by
    have hd := hsome.2
    rw [percent_difference] at hd
    cases hx : evalN d u (NExpr.sub mean_10 mean_30) a <;>
      cases hy : evalN d u mean_30 a <;>
        rw [evalN, hx, hy] at hd <;> simp_all
  rw [mean_30, evalN] at h30
  split at h30
  next hcond =>
    rw [base_universe, evalF] at hcond
    exact hcond
  next => simp at h30

/-- Witness for C10: with `dEx`'s uniform columns on the example universe,
asset 0 passes the screen and its `Q1500US` column is indeed true. -/
theorem C10_screen_in_base_universe_witness :
    filterPass dEx exU make_pipeline.screen 0 = true ∧
    0 ∈ exU ∧ dEx.boolCol "Q1500US" 0 = some true :=
  ⟨by decide, C10_screen_in_base_universe dEx exU 0 (by decide)⟩

end PipelineKernel
